import Mathlib

/-
Verification of the ngfly/translate-db translation service.

The development shallowly embeds the two core components:
- `TranslateService` (src/lib/services/translate.service.ts): in-memory
  translation table, current language, loading flag, memoized init promise,
  lookup with fallback chain, parameter substitution, language switching,
  cache clearing.
- `TranslationDBService` (src/lib/services/translate-db.service.ts): the
  IndexedDB adapter with its swallow-and-log error policy.

JavaScript specifics that matter are modelled explicitly:
- `Map`/object lookups are association-list lookups (insertion order kept);
- `value ?? fb` falls through only on null/undefined, so an empty string is
  returned as-is, while `if (value)` treats the empty string as falsy;
- indexing an object with `undefined` coerces the key to the string
  "undefined" (`langKey`);
- promises are modelled by explicit state passing; the environment (fetch
  outcome, persisted store contents) is a `World` value.
-/

namespace TranslateDB

/-- A translation record (`TranslationValue`): language code → translated
string, in the object's own insertion order. -/
abbrev TranslationValue := List (String × String)

/-- First-match association-list lookup; models both `Map.get` and JS object
property access (`undefined` for a missing key becomes `none`). -/
def alistGet {α : Type} : List (String × α) → String → Option α
  | [], _ => none
  | (k1, v) :: rest, k => if k1 == k then some v else alistGet rest k

/-- `Map.set` / IndexedDB `put` upsert: overwrite the existing binding in
place, otherwise append. -/
def alistPut {α : Type} : List (String × α) → String → α → List (String × α)
  | [], k, v => [(k, v)]
  | (k1, v1) :: rest, k, v =>
    if k1 == k then (k1, v) :: rest else (k1, v1) :: alistPut rest k v

/-- JS property key of a possibly-undefined string: `obj[undefined]` looks up
the property named "undefined". -/
def langKey : Option String → String
  | some l => l
  | none => "undefined"

/-- Outcome of the memoized `initPromise`. -/
inductive InitOutcome
  | resolved
  | rejected
deriving DecidableEq

/-- State of the `TranslateService` instance.
`currentLang` is `Option String` because `setLanguage` can assign
`this.acceptedLanguages[0]` when that index is out of bounds (undefined).
`initState` models the `initPromise` field: `none` is null, `some o` is a
promise whose eventual outcome is `o`. `langEmissions` logs every
`langChangeSubject.next(...)` call in order. -/
structure ServiceState where
  currentLang : Option String
  acceptedLanguages : List String
  translations : List (String × TranslationValue)
  loadingValue : Bool
  initState : Option InitOutcome
  langEmissions : List (Option String)
deriving DecidableEq

/-- Field initializers of `TranslateService` (constructor state). -/
def freshService : ServiceState :=
  { currentLang := some "en"
    acceptedLanguages := []
    translations := []
    loadingValue := true
    initState := none
    langEmissions := [] }

/-- `getTranslationFallback`, step `translation[this.acceptedLanguages[0]]`:
the entry for the first accepted language (property key "undefined" when the
accepted list is empty). -/
def firstAcceptedEntry (st : ServiceState) (translation : TranslationValue) : Option String :=
  alistGet translation (langKey st.acceptedLanguages.head?)

/-- `getTranslationFallback`, step `Object.keys(translation)`:
`if (languages.length > 0) return translation[languages[0]]`, else fall back
to the key. The first own key's entry is the record's first binding. -/
def firstOwnEntry (translation : TranslationValue) (key : String) : String :=
  match translation with
  | [] => key
  | (_, v0) :: _ => v0

/-- `TranslateService.getTranslationFallback` (translate.service.ts:264-278).
`if (defaultValue) return defaultValue;` is a JS truthiness test: an empty
string is skipped exactly like a missing entry. -/
def getTranslationFallback (st : ServiceState) (key : String) : String :=
  match alistGet st.translations key with
  | none => key
  | some translation =>
    match firstAcceptedEntry st translation with
    | some v => if v == "" then firstOwnEntry translation key else v
    | none => firstOwnEntry translation key

/-- `TranslateService.getTranslation` (translate.service.ts:247-255) with the
fallback resolver abstracted, to express that a branch never invokes it.
`value ?? fallback` falls through only when the entry is absent; a present
empty string is returned. -/
def getTranslationCore (fb : String → String) (st : ServiceState) (key : String) : String :=
  match alistGet st.translations key with
  | none => fb key
  | some translation =>
    match alistGet translation (langKey st.currentLang) with
    | some v => v
    | none => fb key

/-- `TranslateService.getTranslation`, with the actual fallback plugged in. -/
def getTranslation (st : ServiceState) (key : String) : String :=
  getTranslationCore (getTranslationFallback st) st key

/-- Character-level test that `pat` begins `s`. -/
def startsWith : List Char → List Char → Bool
  | [], _ => true
  | _ :: _, [] => false
  | p :: ps, c :: cs => p == c && startsWith ps cs

/-- Whether `pat` occurs anywhere in `s` (the `g`-flagged regex finds a
match). -/
def occursB (pat : List Char) : List Char → Bool
  | [] => startsWith pat []
  | c :: rest => startsWith pat (c :: rest) || occursB pat rest

/-- Left-to-right, non-overlapping global replacement of a literal pattern,
the semantics of `str.replace(new RegExp(pattern, 'g'), value)` for a
pattern with no active regex metacharacters. Fuel is the string length; each
step consumes at least one character. -/
def listReplaceAux (pat rep : List Char) : Nat → List Char → List Char
  | 0, s => s
  | _ + 1, [] => []
  | fuel + 1, c :: rest =>
    if !pat.isEmpty && startsWith pat (c :: rest) then
      rep ++ listReplaceAux pat rep fuel (List.drop pat.length (c :: rest))
    else
      c :: listReplaceAux pat rep fuel rest

/-- Global string replacement (see `listReplaceAux`). -/
def strReplace (s pat rep : String) : String :=
  String.mk (listReplaceAux pat.data rep.data s.data.length s.data)

/-- `TranslateService.replaceParams` (translate.service.ts:331-338):
`Object.keys(params).reduce(...)`, i.e. a left fold over the params in
insertion order, each step replacing every occurrence of the braced name. -/
def replaceParams (translation : String) (params : Option (List (String × String))) : String :=
  match params with
  | none => translation
  | some ps => ps.foldl (fun str p => strReplace str ("\x7b" ++ p.1 ++ "\x7d") p.2) translation

/-- `TranslateService.instant` (translate.service.ts:140-151). With a null
`initPromise` it warns and returns the raw key directly — note that this
early return bypasses `replaceParams`. -/
def instant (st : ServiceState) (key : String) (params : Option (List (String × String))) : String :=
  match st.initState with
  | none => key
  | some _ =>
    let translation :=
      if st.loadingValue then getTranslationFallback st key else getTranslation st key
    replaceParams translation params

/-- `TranslateService.isLanguageSupported` (translate.service.ts:183-189). -/
def isLanguageSupported (st : ServiceState) (lang : String) : Bool :=
  if st.loadingValue then true else st.acceptedLanguages.contains lang

/-- `TranslateService.setLanguage` (translate.service.ts:161-174). The guarded
`await this.waitForInitialization()` resolves an already-settled promise and
changes no coordinator state, so it is dropped. On an unsupported language the
code assigns `this.acceptedLanguages[0]`, which is undefined when the accepted
list is empty — hence the `Option`. The resolved language is stored and then
emitted unconditionally. -/
def setLanguage (st : ServiceState) (lang : String) : ServiceState :=
  let resolved : Option String :=
    if isLanguageSupported st lang then some lang else st.acceptedLanguages.head?
  { st with currentLang := resolved, langEmissions := st.langEmissions ++ [resolved] }

/-- Console log levels the DB adapter emits (`console.warn` / `console.error`). -/
inductive LogLevel
  | warn
  | error
deriving DecidableEq

/-- The `db` field of `TranslationDBService`: undefined until `openDB`
resolves (`closed`), afterwards a connection to the store contents. -/
inductive DBState
  | closed
  | opened (contents : List (String × TranslationValue))
deriving DecidableEq

/-- `TranslationDBService.ensureDBInitialized` (translate-db.service.ts:164-168):
only warns when `this.db` is undefined; it never throws. -/
def ensureDB (db : DBState) : List LogLevel :=
  match db with
  | DBState.closed => [LogLevel.warn]
  | DBState.opened _ => []

/-- `TranslationDBService.saveToCache` (translate-db.service.ts:62-69). With an
undefined `db`, `this.db.put` raises a TypeError inside the try block, which is
caught and logged; the write is lost but nothing propagates. -/
def saveToCache (db : DBState) (key : String) (value : TranslationValue) :
    DBState × List LogLevel :=
  let lg := ensureDB db
  match db with
  | DBState.closed => (db, lg ++ [LogLevel.error])
  | DBState.opened c => (DBState.opened (alistPut c key value), lg)

/-- `TranslationDBService.getFromCache` (translate-db.service.ts:78-86): the
catch branch returns null; a missing key is undefined. Both are `none`. -/
def getFromCache (db : DBState) (key : String) : Option TranslationValue × List LogLevel :=
  let lg := ensureDB db
  match db with
  | DBState.closed => (none, lg ++ [LogLevel.error])
  | DBState.opened c => (alistGet c key, lg)

/-- `TranslationDBService.getAllFromCache` (translate-db.service.ts:94-111):
zips `getAll` with `getAllKeys` into a mapping; the catch branch returns the
empty mapping. -/
def getAllFromCache (db : DBState) : List (String × TranslationValue) × List LogLevel :=
  let lg := ensureDB db
  match db with
  | DBState.closed => ([], lg ++ [LogLevel.error])
  | DBState.opened c => (c, lg)

/-- `TranslationDBService.clearCache` (translate-db.service.ts:118-125): clear
the store contents, keep the connection; errors (including the TypeError on an
undefined `db`) are caught and logged. -/
def clearCache (db : DBState) : DBState × List LogLevel :=
  let lg := ensureDB db
  match db with
  | DBState.closed => (db, lg ++ [LogLevel.error])
  | DBState.opened _ => (DBState.opened [], lg)

/-- `TranslationDBService.clearDB` (translate-db.service.ts:133-144): guarded
by `if (this.db)` — with an undefined `db` it does nothing and logs nothing;
otherwise it closes, deletes the database and nulls the handle. -/
def clearDB (db : DBState) : DBState × List LogLevel :=
  match db with
  | DBState.closed => (db, [])
  | DBState.opened _ => (DBState.closed, [])

/-- The fetch of `loadTranslations`: a 2xx JSON body, a non-OK response, or a
thrown network error. -/
inductive FetchOutcome
  | ok (data : List (String × TranslationValue))
  | notOk
  | raise
deriving DecidableEq

/-- The environment one `init` run interacts with: the remote response, the
table persisted on disk from earlier runs, whether `openDB` rejects (caught
inside `TranslationDBService.init`), and whether an unexpected exception
interrupts the guarded load block (modelled as striking after the store
open). -/
structure World where
  fetch : FetchOutcome
  persisted : List (String × TranslationValue)
  openFails : Bool
  unexpected : Bool
deriving DecidableEq

/-- `TranslationConfig` (translation.interface.ts). -/
structure Config where
  projectId : String
  endpoint : String
  defaultLang : String
  acceptedLanguages : List String
  apiKey : Option String
  dbName : Option String
deriving DecidableEq

/-- Combined state of the coordinator, the DB adapter, and the effect
counters used to express exactly-once properties. -/
structure SysState where
  svc : ServiceState
  db : DBState
  fetchCount : Nat
  openCount : Nat
deriving DecidableEq

/-- `TranslationDBService.init` (translate-db.service.ts:36-53): opens the
named database, loading what earlier runs persisted; an `openDB` rejection is
caught and logged, leaving `db` undefined. Re-opening an open database keeps
its current contents. -/
def dbInit (w : World) (db : DBState) : DBState :=
  if w.openFails then db
  else
    match db with
    | DBState.closed => DBState.opened w.persisted
    | DBState.opened c => DBState.opened c

/-- One `Promise.all` entry of `loadTranslations` on a 2xx response:
`saveToCache(key, value)` plus `this.translations.set(key, value)`. -/
def saveStep (acc : SysState) (kv : String × TranslationValue) : SysState :=
  { acc with
    db := (saveToCache acc.db kv.1 kv.2).1
    svc := { acc.svc with translations := alistPut acc.svc.translations kv.1 kv.2 } }

/-- `TranslateService.loadFromCache` (translate.service.ts:317-328): read the
whole persisted table and merge it into memory when non-empty. -/
def loadFromCache (s : SysState) : SysState :=
  let cached := (getAllFromCache s.db).1
  if cached.length > 0 then
    { s with
      svc := { s.svc with
        translations := cached.foldl (fun m kv => alistPut m kv.1 kv.2) s.svc.translations } }
  else s

/-- `TranslateService.loadTranslations` (translate.service.ts:287-312): one
fetch attempt; on a 2xx response every entry is persisted and mirrored in
memory, on a non-OK response or a thrown error it falls back to the persisted
cache. -/
def loadTranslations (w : World) (s : SysState) : SysState :=
  let s1 : SysState := { s with fetchCount := s.fetchCount + 1 }
  match w.fetch with
  | FetchOutcome.ok data => data.foldl saveStep s1
  | FetchOutcome.notOk => loadFromCache s1
  | FetchOutcome.raise => loadFromCache s1

/-- The guarded block of `TranslateService.init` (translate.service.ts:78-90):
copy the accepted languages, set the default language (while loading, so the
membership check passes), open the store, load; both the success path and the
catch set the loading flag to false, and the catch rethrows, rejecting the
memoized promise. -/
def runInitBody (cfg : Config) (w : World) (s : SysState) : SysState × InitOutcome :=
  let svc1 := setLanguage { s.svc with acceptedLanguages := cfg.acceptedLanguages } cfg.defaultLang
  let s2 : SysState := { s with svc := svc1, db := dbInit w s.db, openCount := s.openCount + 1 }
  if w.unexpected then
    ({ s2 with svc := { s2.svc with loadingValue := false } }, InitOutcome.rejected)
  else
    let s3 := loadTranslations w s2
    ({ s3 with svc := { s3.svc with loadingValue := false } }, InitOutcome.resolved)

/-- `TranslateService.init` (translate.service.ts:73-93): `if (this.initPromise)
return this.initPromise;` memoizes the first call; otherwise the body runs and
its promise (with its eventual outcome) is stored. `validateConfig` only
warns, so it contributes no state. -/
def init (cfg : Config) (w : World) (s : SysState) : SysState × InitOutcome :=
  match s.svc.initState with
  | some o => (s, o)
  | none =>
    let r := runInitBody cfg w s
    ({ r.1 with svc := { r.1.svc with initState := some r.2 } }, r.2)

/-- `TranslateService.waitForInitialization` (translate.service.ts:232-238):
warns when `initPromise` is null, otherwise awaits the memoized promise. An
already-settled promise resolves immediately; no coordinator state changes
and nothing re-runs. -/
def awaitInitPromise (s : SysState) : SysState := s

/-- `TranslateService.clearModuleCache` (translate.service.ts:195-199):
clear the persisted entries, clear the in-memory map, then await the (already
settled) init promise. -/
def clearModuleCache (s : SysState) : SysState :=
  let s1 : SysState := { s with db := (clearCache s.db).1 }
  awaitInitPromise { s1 with svc := { s1.svc with translations := [] } }

/-- `TranslateService.clearAllCache` (translate.service.ts:205-209): destroy
the database, clear the in-memory map, then await the (already settled) init
promise. -/
def clearAllCache (s : SysState) : SysState :=
  let s1 : SysState := { s with db := (clearDB s.db).1 }
  awaitInitPromise { s1 with svc := { s1.svc with translations := [] } }

/-- A fresh `SysState`: both services just constructed, no effects yet. -/
def freshSys : SysState :=
  { svc := freshService, db := DBState.closed, fetchCount := 0, openCount := 0 }

/-- Demo configuration used by concrete witnesses. -/
def cfgDemo : Config :=
  { projectId := "p", endpoint := "https://api.example.com/translations",
    defaultLang := "en", acceptedLanguages := ["en", "fr"],
    apiKey := none, dbName := none }

/-- Demo environment: the remote answers with one record. -/
def worldDemo : World :=
  { fetch := FetchOutcome.ok [("HELLO", [("en", "Hello"), ("fr", "Bonjour")])],
    persisted := [], openFails := false, unexpected := false }

/-- Demo environment: the fetch returns non-2xx and nothing is persisted. -/
def worldFailEmpty : World :=
  { fetch := FetchOutcome.notOk, persisted := [], openFails := false, unexpected := false }

/-- Demo environment: an unexpected exception interrupts the load. -/
def worldUnexpected : World :=
  { fetch := FetchOutcome.notOk, persisted := [], openFails := false, unexpected := true }

/-- The system right after a successful demo initialization. -/
def readyDemo : SysState := (init cfgDemo worldDemo freshSys).1

/-- A Ready service whose record for "K" lists "fr" first and maps the first
accepted language "en" to the empty string. -/
def stEmptyDefault : ServiceState :=
  { currentLang := some "de", acceptedLanguages := ["en"],
    translations := [("K", [("fr", "bonjour"), ("en", "")])],
    loadingValue := false, initState := some InitOutcome.resolved, langEmissions := [] }

/-- A Ready service with one fully translated record. -/
def stReadyOne : ServiceState :=
  { currentLang := some "en", acceptedLanguages := ["en"],
    translations := [("HELLO", [("en", "Hello")])],
    loadingValue := false, initState := some InitOutcome.resolved, langEmissions := [] }

/-- `stEmptyDefault` with the current language set to the language whose entry
is the empty string. -/
def stEmptyEn : ServiceState :=
  { stEmptyDefault with currentLang := some "en" }

theorem listReplaceAux_no_occurrence (pat rep : List Char) (s : List Char) :
    ∀ fuel, occursB pat s = false → listReplaceAux pat rep fuel s = s := by
  induction s with
  | nil =>
    intro fuel _
    cases fuel <;> rfl
  | cons c rest ih =>
    intro fuel h
    rw [occursB, Bool.or_eq_false_iff] at h
    cases fuel with
    | zero => rfl
    | succ n =>
      rw [listReplaceAux, if_neg, ih n h.2]
      simp [h.1]

theorem strReplace_no_occurrence (s pat rep : String)
    (h : occursB pat.data s.data = false) : strReplace s pat rep = s := by
  cases s with
  | mk data =>
    show String.mk (listReplaceAux pat.data rep.data data.length data) = String.mk data
    rw [listReplaceAux_no_occurrence pat.data rep.data data data.length h]

theorem replaceParams_no_placeholders (s : String) (ps : List (String × String))
    (h : ∀ p ∈ ps, occursB ("\x7b" ++ p.1 ++ "\x7d").data s.data = false) :
    replaceParams s (some ps) = s := by
  induction ps with
  | nil => rfl
  | cons p rest ih =>
    show List.foldl _ s (p :: rest) = s
    rw [List.foldl_cons, strReplace_no_occurrence s _ p.2 (h p (by simp))]
    exact ih fun q hq => h q (by simp [hq])

theorem getTranslation_of_empty (st : ServiceState) (h : st.translations = [])
    (k : String) : getTranslation st k = k := by
  simp [getTranslation, getTranslationCore, getTranslationFallback, h, alistGet]

theorem foldl_saveStep_counts (data : List (String × TranslationValue)) :
    ∀ s : SysState, (data.foldl saveStep s).fetchCount = s.fetchCount ∧
      (data.foldl saveStep s).openCount = s.openCount := by
  induction data with
  | nil => intro s; exact ⟨rfl, rfl⟩
  | cons kv rest ih =>
    intro s
    rw [List.foldl_cons]
    exact ih (saveStep s kv)

theorem loadFromCache_counts (s : SysState) :
    (loadFromCache s).fetchCount = s.fetchCount ∧
      (loadFromCache s).openCount = s.openCount := by
  rw [loadFromCache]
  split <;> exact ⟨rfl, rfl⟩

theorem loadTranslations_counts (w : World) (s : SysState) :
    (loadTranslations w s).fetchCount = s.fetchCount + 1 ∧
      (loadTranslations w s).openCount = s.openCount := by
  rw [loadTranslations]
  cases w.fetch with
  | ok data => exact foldl_saveStep_counts data _
  | notOk => exact loadFromCache_counts _
  | raise => exact loadFromCache_counts _

/-- C1: with no record for the key, `getTranslation` falls through to the
fallback resolver, which — having nothing for the key — returns the key
itself, for every current language; with a record containing an entry for the
current language, `getTranslation` returns that entry exactly, never invoking
the fallback resolver (the result is the same for every resolver `fb`). -/
theorem c1_lookup_resolution (st : ServiceState) (key : String) :
    (alistGet st.translations key = none →
      getTranslation st key = getTranslationFallback st key ∧
      getTranslation st key = key) ∧
    (∀ r v, alistGet st.translations key = some r →
      alistGet r (langKey st.currentLang) = some v →
      ∀ fb : String → String, getTranslationCore fb st key = v) := by
  constructor
  · intro h
    constructor
    · simp [getTranslation, getTranslationCore, h]
    · simp [getTranslation, getTranslationCore, getTranslationFallback, h]
  · intro r v hr hv fb
    simp [getTranslationCore, hr, hv]

theorem c1_witness :
    getTranslation stReadyOne "MISSING" = "MISSING" ∧
    getTranslationCore (fun k => String.append k "!") stReadyOne "HELLO" = "Hello" := by
  constructor
  · exact ((c1_lookup_resolution stReadyOne "MISSING").1 (by decide)).2
  · exact (c1_lookup_resolution stReadyOne "HELLO").2 [("en", "Hello")] "Hello"
      (by decide) (by decide) (fun k => String.append k "!")

/-- C2 counterexample: the claim says the fallback returns the record's entry
for the first accepted language *if present*. For the record of key "K" the
first accepted language "en" has a present entry (the empty string), yet the
fallback skips it (JS truthiness) and returns the entry of the record's first
own key "fr" instead. -/
theorem c2_counterexample :
    alistGet stEmptyDefault.translations "K" = some [("fr", "bonjour"), ("en", "")] ∧
    stEmptyDefault.acceptedLanguages.head? = some "en" ∧
    alistGet [("fr", "bonjour"), ("en", "")] "en" = some "" ∧
    getTranslationFallback stEmptyDefault "K" = "bonjour" ∧
    ("bonjour" : String) ≠ "" := by
  decide

/-- C2 (amended): the fallback returns the entry for the first accepted
language if present and non-empty; if that entry is absent or empty it
returns the entry of the record's first own key when the record has entries;
a key with no record, or an empty record, yields the key itself. -/
theorem c2_fallback_order (st : ServiceState) (key : String) :
    (alistGet st.translations key = none → getTranslationFallback st key = key) ∧
    (∀ r, alistGet st.translations key = some r →
      (∀ d v, st.acceptedLanguages.head? = some d → alistGet r d = some v →
        v ≠ "" → getTranslationFallback st key = v) ∧
      ((firstAcceptedEntry st r = none ∨ firstAcceptedEntry st r = some "") →
        getTranslationFallback st key = firstOwnEntry r key) ∧
      (r = [] → getTranslationFallback st key = key)) := by
  constructor
  · intro h
    simp [getTranslationFallback, h]
  · intro r hr
    refine ⟨?_, ?_, ?_⟩
    · intro d v hd hv hne
      simp [getTranslationFallback, hr, firstAcceptedEntry, hd, langKey, hv, hne]
    · intro h
      rcases h with h | h <;> simp [getTranslationFallback, hr, h]
    · intro h
      subst h
      simp [getTranslationFallback, hr, firstAcceptedEntry, alistGet, firstOwnEntry]

theorem c2_witness :
    getTranslationFallback stReadyOne "HELLO" = "Hello" ∧
    getTranslationFallback stEmptyDefault "K"
      = firstOwnEntry [("fr", "bonjour"), ("en", "")] "K" ∧
    getTranslationFallback stEmptyDefault "NOPE" = "NOPE" := by
  refine ⟨?_, ?_, ?_⟩
  · exact ((c2_fallback_order stReadyOne "HELLO").2 [("en", "Hello")] (by decide)).1
      "en" "Hello" (by decide) (by decide) (by decide)
  · exact ((c2_fallback_order stEmptyDefault "K").2 [("fr", "bonjour"), ("en", "")]
      (by decide)).2.1 (Or.inr (by decide))
  · exact (c2_fallback_order stEmptyDefault "NOPE").1 (by decide)

/-- C3 counterexample: the claim says `instant` applies parameter substitution
to its result in all cases, including the never-initialized case. On a fresh
(never initialized) service, `instant` returns the raw key with the
placeholder untouched, although substitution would have produced "hi". -/
theorem c3_counterexample :
    freshService.initState = none ∧
    instant freshService "{x}" (some [("x", "hi")]) = "{x}" ∧
    replaceParams "{x}" (some [("x", "hi")]) = "hi" ∧
    ("{x}" : String) ≠ "hi" := by
  decide

/-- C3 (amended): if the service was never initialized, `instant` warns and
returns the raw key with no parameter substitution; once initialized (Loading
or Ready) it applies `replaceParams` to the resolved string: each braced
placeholder with a matching param is globally replaced by its value, params
whose placeholder does not occur leave the string unchanged, placeholders
with no corresponding param stay verbatim, and absent params leave the string
unchanged. -/
theorem c3_instant_substitution (st : ServiceState) (key : String)
    (params : Option (List (String × String))) :
    (st.initState = none → instant st key params = key) ∧
    (∀ o, st.initState = some o →
      instant st key params
        = replaceParams
            (if st.loadingValue then getTranslationFallback st key
             else getTranslation st key) params) ∧
    (∀ s, replaceParams s none = s) ∧
    (∀ s ps, (∀ p ∈ ps, occursB ("\x7b" ++ p.1 ++ "\x7d").data s.data = false) →
      replaceParams s (some ps) = s) ∧
    replaceParams "Hello {name}" (some [("name", "Eva")]) = "Hello Eva" ∧
    replaceParams "Hi {x}" (some []) = "Hi {x}" ∧
    replaceParams "Hi {x}" (some [("y", "Z")]) = "Hi {x}" := by
  refine ⟨?_, ?_, fun s => rfl, replaceParams_no_placeholders, ?_, ?_, ?_⟩
  · intro h
    simp [instant, h]
  · intro o h
    simp [instant, h]
  · decide
  · decide
  · decide

theorem c3_witness :
    instant freshService "{x}" (some [("x", "hi")]) = "{x}" ∧
    instant stReadyOne "HELLO" (some [("name", "Eva")])
      = replaceParams
          (if stReadyOne.loadingValue then getTranslationFallback stReadyOne "HELLO"
           else getTranslation stReadyOne "HELLO") (some [("name", "Eva")]) ∧
    replaceParams "abc" (some [("x", "Y")]) = "abc" := by
  refine ⟨?_, ?_, ?_⟩
  · exact (c3_instant_substitution freshService "{x}" (some [("x", "hi")])).1 (by decide)
  · exact (c3_instant_substitution stReadyOne "HELLO" (some [("name", "Eva")])).2.1
      InitOutcome.resolved (by decide)
  · exact (c3_instant_substitution freshService "abc" none).2.2.2.1 "abc" [("x", "Y")] (by decide)

/-- C4: the claim (and the methods' own doc comments, "Reloads translations
after clearing") says both cache-clear operations clear the in-memory table
and re-run the load, passing back through Loading to Ready. In the code,
`waitForInitialization` merely awaits the already-settled init promise: after
a successful init that loaded the record for "HELLO", both
`clearModuleCache` and `clearAllCache` leave the in-memory table empty, never
re-enter Loading, and every subsequent lookup returns the raw key. The store
operations themselves do behave as described (`clearCache` keeps the store
open and empty, `clearDB` destroys it). -/
theorem c4_cache_clear_no_reload :
    instant readyDemo.svc "HELLO" none = "Hello" ∧
    readyDemo.svc.loadingValue = false ∧
    (clearModuleCache readyDemo).db = DBState.opened [] ∧
    (clearModuleCache readyDemo).svc.translations = [] ∧
    (clearModuleCache readyDemo).svc.loadingValue = false ∧
    (clearModuleCache readyDemo).fetchCount = readyDemo.fetchCount ∧
    instant (clearModuleCache readyDemo).svc "HELLO" none = "HELLO" ∧
    (clearAllCache readyDemo).db = DBState.closed ∧
    (clearAllCache readyDemo).svc.translations = [] ∧
    (clearAllCache readyDemo).svc.loadingValue = false ∧
    (clearAllCache readyDemo).fetchCount = readyDemo.fetchCount ∧
    instant (clearAllCache readyDemo).svc "HELLO" none = "HELLO" := by
  decide

theorem init_memoized (cfg : Config) (w : World) (s : SysState) (o : InitOutcome)
    (h : s.svc.initState = some o) : init cfg w s = (s, o) := by
  simp [init, h]

theorem runInitBody_counts (cfg : Config) (w : World) (s : SysState)
    (hex : w.unexpected = false) :
    (runInitBody cfg w s).1.fetchCount = s.fetchCount + 1 ∧
    (runInitBody cfg w s).1.openCount = s.openCount + 1 := by
  rw [runInitBody]
  simp only [hex, Bool.false_eq_true, if_false]
  exact ⟨(loadTranslations_counts w _).1, (loadTranslations_counts w _).2⟩

/-- C5: `init` memoizes its promise. Starting from a fresh service, a second
call with any configuration and any environment returns exactly the first
call's state and outcome — in particular the whole run performs exactly one
remote fetch attempt and one store-open. -/
theorem c5_init_memoized (cfg cfg2 : Config) (w w2 : World) (s : SysState)
    (h0 : s.svc.initState = none) (hf : s.fetchCount = 0) (ho : s.openCount = 0)
    (hex : w.unexpected = false) :
    init cfg2 w2 (init cfg w s).1 = init cfg w s ∧
    ((init cfg w s).1).fetchCount = 1 ∧ ((init cfg w s).1).openCount = 1 := by
  have h1 : (init cfg w s).1.svc.initState = some (init cfg w s).2 := by
    simp [init, h0]
  have h2 : (init cfg w s).1.fetchCount = (runInitBody cfg w s).1.fetchCount := by
    simp [init, h0]
  have h3 : (init cfg w s).1.openCount = (runInitBody cfg w s).1.openCount := by
    simp [init, h0]
  refine ⟨?_, ?_, ?_⟩
  · rw [init_memoized cfg2 w2 (init cfg w s).1 (init cfg w s).2 h1]
  · rw [h2, (runInitBody_counts cfg w s hex).1, hf]
  · rw [h3, (runInitBody_counts cfg w s hex).2, ho]

theorem c5_witness :
    init cfgDemo worldDemo (init cfgDemo worldDemo freshSys).1
      = init cfgDemo worldDemo freshSys ∧
    ((init cfgDemo worldDemo freshSys).1).fetchCount = 1 ∧
    ((init cfgDemo worldDemo freshSys).1).openCount = 1 :=
  c5_init_memoized cfgDemo cfgDemo worldDemo worldDemo freshSys
    (by decide) (by decide) (by decide) (by decide)

/-- C6: whatever the environment does — successful fetch, failed fetch with
cache fallback, a failing store-open, or an unexpected exception inside the
guarded load block — a first call to `init` always ends with the loading flag
false: the coordinator reaches Ready unconditionally and readiness waiters
are released. -/
theorem c6_ready_unconditional (cfg : Config) (w : World) (s : SysState)
    (h0 : s.svc.initState = none) :
    ((init cfg w s).1).svc.loadingValue = false := by
  have hb : (init cfg w s).1.svc.loadingValue = (runInitBody cfg w s).1.svc.loadingValue := by
    simp [init, h0]
  rw [hb, runInitBody]
  split <;> rfl

theorem c6_witness :
    ((init cfgDemo worldUnexpected freshSys).1).svc.loadingValue = false :=
  c6_ready_unconditional cfgDemo worldUnexpected freshSys (by decide)

/-- C7: `setLanguage` always records the resolved language and emits exactly
one change notification carrying it (no de-duplication); while Loading the
membership check is bypassed (`isLanguageSupported` is unconditionally true)
so any language is accepted; when Ready, a member of the accepted list is
kept and a non-member is replaced by the accepted list's first element. -/
theorem c7_set_language (st : ServiceState) (lang : String) :
    (setLanguage st lang).langEmissions
      = st.langEmissions ++ [(setLanguage st lang).currentLang] ∧
    (st.loadingValue = true → isLanguageSupported st lang = true) ∧
    (st.loadingValue = true → (setLanguage st lang).currentLang = some lang) ∧
    (st.loadingValue = false → st.acceptedLanguages.contains lang = true →
      (setLanguage st lang).currentLang = some lang) ∧
    (st.loadingValue = false → st.acceptedLanguages.contains lang = false →
      (setLanguage st lang).currentLang = st.acceptedLanguages.head?) := by
  refine ⟨rfl, ?_, ?_, ?_, ?_⟩
  · intro h
    simp [isLanguageSupported, h]
  · intro h
    simp [setLanguage, isLanguageSupported, h]
  · intro h1 h2
    have hs : isLanguageSupported st lang = true := by
      rw [isLanguageSupported, if_neg (by simp [h1]), h2]
    simp [setLanguage, hs]
  · intro h1 h2
    have hs : isLanguageSupported st lang = false := by
      rw [isLanguageSupported, if_neg (by simp [h1]), h2]
    simp [setLanguage, hs]

theorem c7_witness :
    ((setLanguage readyDemo.svc "de").langEmissions
      = readyDemo.svc.langEmissions ++ [(setLanguage readyDemo.svc "de").currentLang]) ∧
    (setLanguage readyDemo.svc "de").currentLang = readyDemo.svc.acceptedLanguages.head? ∧
    (setLanguage readyDemo.svc "fr").currentLang = some "fr" := by
  refine ⟨(c7_set_language readyDemo.svc "de").1, ?_, ?_⟩
  · exact (c7_set_language readyDemo.svc "de").2.2.2.2 (by decide) (by decide)
  · exact (c7_set_language readyDemo.svc "fr").2.2.2.1 (by decide) (by decide)

theorem loadFromCache_translations (s : SysState) :
    (loadFromCache s).svc.translations
      = ((getAllFromCache s.db).1).foldl (fun m kv => alistPut m kv.1 kv.2)
          s.svc.translations := by
  rw [loadFromCache]
  split
  · rfl
  · next h =>
    cases hc : (getAllFromCache s.db).1 with
    | nil => rfl
    | cons a l => rw [hc] at h; simp at h

/-- C8: on a failed remote fetch — non-OK response or thrown network error —
a first `init` run merges the entire persisted table into the in-memory
table; when the persisted store is empty too (and memory started empty), the
table stays empty and every lookup afterwards returns the key itself. -/
theorem c8_fetch_failure_fallback (cfg : Config) (w : World) (s : SysState)
    (h0 : s.svc.initState = none) (hdb : s.db = DBState.closed)
    (hopen : w.openFails = false) (hex : w.unexpected = false)
    (hfail : w.fetch = FetchOutcome.notOk ∨ w.fetch = FetchOutcome.raise) :
    ((init cfg w s).1).svc.translations
      = w.persisted.foldl (fun m kv => alistPut m kv.1 kv.2) s.svc.translations ∧
    (w.persisted = [] → s.svc.translations = [] →
      ((init cfg w s).1).svc.translations = [] ∧
      ∀ k, getTranslation ((init cfg w s).1).svc k = k) := by
  have h1 : (init cfg w s).1.svc.translations = (runInitBody cfg w s).1.svc.translations := by
    simp [init, h0]
  have hmain : ((init cfg w s).1).svc.translations
      = w.persisted.foldl (fun m kv => alistPut m kv.1 kv.2) s.svc.translations := by
    rw [h1, runInitBody]
    simp only [hex, Bool.false_eq_true, if_false]
    rcases hfail with hf | hf <;>
      · rw [loadTranslations]
        rw [hf]
        rw [loadFromCache_translations]
        simp [getAllFromCache, dbInit, hopen, hdb, ensureDB, setLanguage]
  refine ⟨hmain, ?_⟩
  intro hpe hte
  have hE : ((init cfg w s).1).svc.translations = [] := by
    rw [hmain, hpe, hte]
    rfl
  exact ⟨hE, fun k => getTranslation_of_empty _ hE k⟩

theorem c8_witness :
    ((init cfgDemo worldFailEmpty freshSys).1).svc.translations = [] ∧
    getTranslation ((init cfgDemo worldFailEmpty freshSys).1).svc "HELLO" = "HELLO" := by
  have h := (c8_fetch_failure_fallback cfgDemo worldFailEmpty freshSys
    (by decide) (by decide) (by decide) (by decide) (Or.inl (by decide))).2
    (by decide) (by decide)
  exact ⟨h.1, h.2 "HELLO"⟩

/-- C9 counterexample: the claim says every store-adapter operation invoked
before `open` completes logs a warning. `clearDB` (drop) is guarded by
`if (this.db)`, so before `open` it resolves silently: it logs nothing at
all, in particular no warning. -/
theorem c9_counterexample :
    (clearDB DBState.closed).2 = [] ∧
    LogLevel.warn ∉ (clearDB DBState.closed).2 := by
  decide

/-- C9 (amended): before `open` has completed, every store-adapter operation
is a no-op that resolves without throwing: put resolves without persisting,
get resolves to not-found, get-all resolves to the empty mapping, clear and
drop resolve without effect. Put, get, get-all and clear each log a warning
(followed by the logged, swallowed TypeError); drop alone resolves silently,
logging nothing. -/
theorem c9_preopen_noop (k : String) (v : TranslationValue) :
    saveToCache DBState.closed k v = (DBState.closed, [LogLevel.warn, LogLevel.error]) ∧
    getFromCache DBState.closed k = (none, [LogLevel.warn, LogLevel.error]) ∧
    getAllFromCache DBState.closed = ([], [LogLevel.warn, LogLevel.error]) ∧
    clearCache DBState.closed = (DBState.closed, [LogLevel.warn, LogLevel.error]) ∧
    clearDB DBState.closed = (DBState.closed, []) :=
  ⟨rfl, rfl, rfl, rfl, rfl⟩

/-- C10: the empty-string asymmetry. In the Ready-state primary lookup an
entry that is the empty string is returned as-is (`??` falls through only on
null/undefined), while in fallback resolution an empty-string entry for the
first accepted language fails the truthiness test and resolution proceeds to
the record's first own key. -/
theorem c10_empty_string_asymmetry (st : ServiceState) (key : String)
    (r : TranslationValue) :
    (alistGet st.translations key = some r →
      alistGet r (langKey st.currentLang) = some "" →
      getTranslation st key = "") ∧
    (alistGet st.translations key = some r →
      ∀ d, st.acceptedLanguages.head? = some d → alistGet r d = some "" →
        getTranslationFallback st key = firstOwnEntry r key) := by
  constructor
  · intro hr hv
    simp [getTranslation, getTranslationCore, hr, hv]
  · intro hr d hd hv
    simp [getTranslationFallback, hr, firstAcceptedEntry, hd, langKey, hv]

theorem c10_witness :
    getTranslation stEmptyEn "K" = "" ∧
    getTranslationFallback stEmptyEn "K"
      = firstOwnEntry [("fr", "bonjour"), ("en", "")] "K" := by
  constructor
  · exact (c10_empty_string_asymmetry stEmptyEn "K" [("fr", "bonjour"), ("en", "")]).1
      (by decide) (by decide)
  · exact (c10_empty_string_asymmetry stEmptyEn "K" [("fr", "bonjour"), ("en", "")]).2
      (by decide) "en" (by decide) (by decide)

end TranslateDB
